import Mathlib

/-!
Verification of the replay-extraction orchestration core
(`src/includes/heroprotocol.js`).

The JavaScript module is shallowly embedded: JS values become the inductive
type `JSVal`; the mutable module-level cache slot (`lastUsed`), the diagnostic
logger and the observable container/decode effects become an explicit state
record `St` threaded through the operations; JS exceptions become the
`Except String` layer; an `Error` *value* returned (as opposed to raised)
becomes the `OpenRet.errVal` constructor.  Protocol modules and the archive
container are external collaborators and are therefore parameters of a
`World` record (their decode operations are modelled as total functions,
matching the scope of the claims, none of which concerns a decoder that
itself raises).
-/
/-- A JavaScript runtime value as it occurs in this module: `null`/absence,
booleans, numbers, strings, binary buffers, arrays, and plain objects
(ordered key/value maps with unique keys, as produced by the decoders). -/
inductive JSVal where
  | null
  | bool (b : Bool)
  | num (n : Int)
  | str (s : String)
  | buf (bs : List Nat)
  | arr (xs : List JSVal)
  | obj (fs : List (String × JSVal))

/-- `Buffer.prototype.toString()` — the text representation of a binary
buffer.  The precise character decoding is irrelevant to every claim; any
fixed total function is a faithful model of the conversion point. -/
def bufToString (bs : List Nat) : String :=
  String.mk (bs.map Char.ofNat)

/-- JavaScript truthiness on the values of the model: `null`, `false`, `0`
and the empty string are falsy; buffers, arrays and objects are always
truthy (they are heap objects in JS). -/
def falsy : JSVal → Bool
  | .null => true
  | .bool b => !b
  | .num n => n == 0
  | .str s => s == ""
  | _ => false

mutual

/-- `parseStrings` (src/includes/heroprotocol.js lines 31-41), the
ValueNormalizer.  The source first short-circuits on falsy input
(`if (!data) return data`); since every falsy JS value is a primitive that
the function would return unchanged anyway (buffers, arrays and objects are
always truthy), the short-circuit coincides with the identity cases below.
Buffers become their text representation, arrays are mapped element-wise,
objects are rewritten value-wise in place (key set and order kept), and all
other values pass through unchanged. -/
def parseStrings : JSVal → JSVal
  | .null => .null
  | .bool b => .bool b
  | .num n => .num n
  | .str s => .str s
  | .buf bs => .str (bufToString bs)
  | .arr xs => .arr (parseStringsList xs)
  | .obj fs => .obj (parseStringsObj fs)

/-- Element-wise normalization of an array's items (`data.map(item =>
parseStrings(item))`). -/
def parseStringsList : List JSVal → List JSVal
  | [] => []
  | x :: xs => parseStrings x :: parseStringsList xs

/-- Value-wise normalization of an object's properties (`for (let key in
data) data[key] = parseStrings(data[key])`). -/
def parseStringsObj : List (String × JSVal) → List (String × JSVal)
  | [] => []
  | (k, v) :: fs => (k, parseStrings v) :: parseStringsObj fs
end


/-! ## Section names, protocol modules, the container, the world -/
/-- `HEADER` — the parsable-part name constants (lines 12-19). -/
def HEADER : String := "header"

/-- `DETAILS` section name constant. -/
def DETAILS : String := "replay.details"

/-- `INITDATA` section name constant. -/
def INITDATA : String := "replay.initdata"

/-- `GAME_EVENTS` section name constant. -/
def GAME_EVENTS : String := "replay.game.events"

/-- `MESSAGE_EVENTS` section name constant. -/
def MESSAGE_EVENTS : String := "replay.message.events"

/-- `TRACKER_EVENTS` section name constant. -/
def TRACKER_EVENTS : String := "replay.tracker.events"

/-- `ATTRIBUTES_EVENTS` section name constant. -/
def ATTRIBUTES_EVENTS : String := "replay.attributes.events"

/-- `RAW_DATA` section name constant. -/
def RAW_DATA : String := "replay.server.battlelobby"

/-- The single-shot sections dispatched at line 119:
`[DETAILS, INITDATA, ATTRIBUTES_EVENTS].indexOf(archiveFile) > -1`. -/
def SINGLE_SHOT : List String := [DETAILS, INITDATA, ATTRIBUTES_EVENTS]

/-- The streaming sections dispatched at line 124:
`[GAME_EVENTS, MESSAGE_EVENTS, TRACKER_EVENTS].indexOf(archiveFile) > -1`. -/
def STREAMING : List String := [GAME_EVENTS, MESSAGE_EVENTS, TRACKER_EVENTS]

/-- A version-specific protocol module (external collaborator): one decode
operation per section requiring version-specific decoding, as listed in
`decoderMap` (lines 21-29).  The three event-stream decoders are generators
in the source; a generator that is always fully drained is modelled as the
list of events it yields.  Decoders are modelled total (a decoder that
raises — DecodeFailure — is outside every claim's scope). -/
structure Protocol where
  decodeReplayHeader : JSVal → JSVal
  decodeReplayDetails : JSVal → JSVal
  decodeReplayInitdata : JSVal → JSVal
  decodeReplayAttributesEvents : JSVal → JSVal
  decodeReplayGameEvents : JSVal → List JSVal
  decodeReplayMessageEvents : JSVal → List JSVal
  decodeReplayTrackerEvents : JSVal → List JSVal

/-- Dispatch of `archive.protocol[decoderMap[archiveFile]]` restricted to
the single-shot branch (line 121): the section is known to be one of
`DETAILS`, `INITDATA`, `ATTRIBUTES_EVENTS`. -/
def decodeSingleShot (p : Protocol) (sec : String) (b : JSVal) : JSVal :=
  if sec = DETAILS then p.decodeReplayDetails b
  else if sec = INITDATA then p.decodeReplayInitdata b
  else p.decodeReplayAttributesEvents b

/-- Dispatch of `archive.protocol[decoderMap[archiveFile]]` restricted to
the streaming branch (lines 130 and 145). -/
def decodeStreaming (p : Protocol) (sec : String) (b : JSVal) : List JSVal :=
  if sec = GAME_EVENTS then p.decodeReplayGameEvents b
  else if sec = MESSAGE_EVENTS then p.decodeReplayMessageEvents b
  else p.decodeReplayTrackerEvents b

/-- The raw MPQ container behind an archive: the embedded user-data header
blob (`archive.header.userDataHeader.content`, line 73) and the member
files (`archive.readFile(name)`; `none` models the read raising). -/
structure Container where
  headerContent : JSVal
  files : String → Option JSVal

/-- The archive object (`MPQArchive` instance plus the fields this module
attaches to it).  `aid` models JS reference identity — the constructor
allocates a fresh one, and the module never copies archives, so two
archives are the same heap object exactly when their `aid`s agree. -/
structure Archive where
  aid : Nat
  filename : String
  container : Container
  data : List (String × JSVal)
  baseBuild : Option Int
  protocol : Option Protocol
  error : Option String

/-- The external environment: the protocol registry
(`require('heroprotocol/lib/protocol' + v)`, `none` models the require
throwing), the bootstrap module `protocol29406` (line 6), the file system
behind `new MPQArchive(path)` (`none` models the constructor throwing) and
`process.cwd()`. -/
structure World where
  registry : String → Option Protocol
  protocol29406 : Protocol
  fs : String → Option Container
  cwd : String

/-- Mutable module/process state threaded through `open` and `get`: the
single cache slot `lastUsed` (line 43), the reference-identity allocator,
and observable effect counters — diagnostics emitted by `logger.log`
(line 110), `new MPQArchive` container reads, `readFile` reads, header
decodes, and section-decoder invocations. -/
structure St where
  lastUsed : Option Archive
  nextId : Nat
  logs : Nat
  containerReads : Nat
  fileReads : Nat
  headerDecodes : Nat
  sectionDecodes : Nat

/-- The state of a fresh process: empty cache slot, all counters zero. -/
def St.init : St :=
  { lastUsed := none, nextId := 0, logs := 0, containerReads := 0,
    fileReads := 0, headerDecodes := 0, sectionDecodes := 0 }

/-- What `open` returns: either an `Error` *value* (returned, not raised —
lines 57-59, 65, 68) or the archive. -/
inductive OpenRet where
  | errVal (msg : String)
  | arch (a : Archive)

/-- The argument accepted by `open` (line 45): a string
(`typeof file === 'string'`), an already-open container handle
(`file instanceof MPQArchive`), or any other value. -/
inductive OpenArg where
  | path (s : String)
  | handle (a : Archive)
  | other

/-- `path.isAbsolute` restricted to POSIX paths: the path begins with a
slash. -/
def isAbsolute (s : String) : Bool :=
  match s.data with
  | [] => false
  | c :: _ => c == '/'

/-- `path.join(process.cwd(), file)` (line 53). -/
def joinPath (a b : String) : String := a ++ "/" ++ b

/-- Resolution of a string argument to the path actually opened
(lines 52-54): absolute paths are kept, relative ones joined to cwd. -/
def resolvePath (w : World) (s : String) : String :=
  if isAbsolute s then s else joinPath w.cwd s

/-- Property read `v[k]`: defined keys of objects; everything else yields
JS `undefined`, modelled as `none`.  (The only accesses the module performs
are on decoded header/event objects.) -/
def getField (v : JSVal) (k : String) : Option JSVal :=
  match v with
  | .obj fs => List.lookup k fs
  | _ => none

/-- JS strict equality `===` as used at line 135, comparing a decoded
event's field against a caller-supplied criterion value.  Primitives
compare structurally; buffers, arrays and objects compare by reference,
and a freshly decoded field is never the same heap object as the caller's
criterion literal, so those comparisons are `false`. -/
def jsStrictEq : JSVal → JSVal → Bool
  | .null, .null => true
  | .bool a, .bool b => a == b
  | .num a, .num b => a == b
  | .str a, .str b => a == b
  | _, _ => false

/-- Assignment `m[k] = v` on a JS object modelled as an association list:
overwrite in place if the key exists, append otherwise. -/
def setField (fs : List (String × JSVal)) (k : String) (v : JSVal) :
    List (String × JSVal) :=
  match fs with
  | [] => [(k, v)]
  | (k', v') :: rest =>
    if k' = k then (k, v) :: rest else (k', v') :: setField rest k v

/-- `String(archive.baseBuild)` as interpolated into the module name at
line 78: a number prints decimally, an absent value prints `undefined`. -/
def bbStr : Option Int → String
  | some n => toString n
  | none => "undefined"

/-! ## The event filter (lines 126-141) -/
/-- One field-match criterion: a caller-supplied JS object mapping field
names to expected values (an element of the `keys` filterSpec array). -/
abbrev Criterion := List (String × JSVal)

/-- The check at line 135 for one field of a criterion against the
normalized event: `parseStrings(event)[key] === keys[i][key]`.  An absent
field reads as `undefined`, which is strictly equal to no present value. -/
def matchKey (ev : JSVal) (kv : String × JSVal) : Bool :=
  match getField ev kv.1 with
  | some v => jsStrictEq v kv.2
  | none => false

/-- The inner loop at lines 134-138 for a single criterion: iterate the
criterion's fields in order and push the normalized event once per field
that matches (`data[i].push(parseStrings(event))` sits inside the
per-field loop, so an event matching several fields of the same criterion
is pushed several times). -/
def critPushes (ev : JSVal) (crit : Criterion) : List JSVal :=
  crit.foldl (fun acc kv => if matchKey ev kv then acc ++ [ev] else acc) []

/-- The loop at line 133 over all criteria for one event: bucket `i`
receives this event's pushes for criterion `i`.  The source indexes
`data[i]` with `i < keys.length` and the buckets were created one per
criterion, so the two lists always have equal length. -/
def pushEvent (ev : JSVal) : List Criterion → List (List JSVal) → List (List JSVal)
  | [], ds => ds
  | _ :: _, [] => []
  | crit :: cs, d :: ds => (d ++ critPushes ev crit) :: pushEvent ev cs ds

/-- The whole filtered-decode loop (lines 128-141): one empty bucket per
criterion, then every event of the drained stream is normalized and
distributed by `pushEvent`. -/
def filterEvents (ks : List Criterion) (events : List JSVal) : List (List JSVal) :=
  events.foldl (fun ds ev => pushEvent (parseStrings ev) ks ds)
    (ks.map fun _ => [])

/-! ## open (lines 45-102) -/
/-- The cache check at line 48:
`!lastUsed || !(lastUsed instanceof MPQArchive) || file !== lastUsed.filename || noCache`.
The slot only ever holds `MPQArchive` instances, so the second disjunct is
always false; `file !== lastUsed.filename` compares the *raw* argument with
the stored (absolute) filename string, hence a non-string argument — in
particular a container handle — never compares equal. -/
def cacheMiss (st : St) (file : OpenArg) (noCache : Bool) : Bool :=
  match st.lastUsed with
  | none => true
  | some lu =>
    (match file with
     | .path s => s != lu.filename
     | _ => true) || noCache

/-- Message of the `Error` value returned when `new MPQArchive(path)`
throws (lines 57-59). -/
def mpqOpenError (abs : String) : String := "Error opening archive: " ++ abs

/-- Message raised by `archive.readFile` on a missing member file. -/
def readFileError (f : String) : String := "file not found in archive: " ++ f

/-- Lines 77-81: `archive.protocol = require(...)` in a try/catch.  On a
registry hit the protocol field is assigned and the error field keeps its
previous value; on a miss the protocol field keeps its previous value and
the error field receives the caught require error (which line 93 then
overwrites whenever the protocol field is still absent). -/
def requireProtocol (w : World) (a : Archive) (bb : Option Int) :
    Option Protocol × Option String :=
  match w.registry (bbStr bb) with
  | some p => (some p, a.error)
  | none =>
    (a.protocol, some ("Cannot find module heroprotocol/lib/protocol" ++ bbStr bb))

/-- Lines 69-94, common to the fresh-path and handle arguments: store the
archive in the cache slot, reset `archive.data`, decode the header with the
bootstrap protocol, extract `baseBuild`, resolve the version-specific
protocol and either re-decode the header with it or record the
protocol-not-found error.  `header.m_version.m_baseBuild` (line 75) raises
a TypeError when the decoded header has no `m_version` property — the
`.error` case of the outer `Except`. -/
def finishOpen (w : World) (a : Archive) (st : St) :
    Except String (OpenRet × St) :=
  let header := parseStrings (w.protocol29406.decodeReplayHeader a.container.headerContent)
  let st1 := { st with headerDecodes := st.headerDecodes + 1 }
  match getField header "m_version" with
  | none => .error "TypeError: cannot read m_baseBuild of undefined"
  | some mv =>
    let bb : Option Int :=
      match getField mv "m_baseBuild" with
      | some (.num n) => some n
      | _ => none
    let a1 := { a with data := [(HEADER, header)], baseBuild := bb }
    let pe := requireProtocol w a1 bb
    match pe.1 with
    | some p =>
      let header2 := parseStrings (p.decodeReplayHeader a1.container.headerContent)
      let a2 := { a1 with protocol := some p, error := pe.2,
                          data := setField a1.data HEADER header2 }
      .ok (.arch a2, { st1 with headerDecodes := st1.headerDecodes + 1,
                                lastUsed := some a2 })
    | none =>
      let a2 := { a1 with error := some ("protocol " ++ bbStr bb ++ " not found") }
      .ok (.arch a2, { st1 with lastUsed := some a2 })

/-- The cache-miss body of `open` (lines 50-94): resolve the argument to a
container handle (string → construct, handle → reuse as-is, anything else →
`Error` value), return `Error` values before touching the cache slot
(line 68 precedes line 69), then run `finishOpen`. -/
def openFresh (w : World) (file : OpenArg) (st : St) :
    Except String (OpenRet × St) :=
  match file with
  | .path s =>
    let abs := resolvePath w s
    match w.fs abs with
    | none => .ok (.errVal (mpqOpenError abs), st)
    | some c =>
      finishOpen w
        { aid := st.nextId, filename := abs, container := c, data := [],
          baseBuild := none, protocol := none, error := none }
        { st with nextId := st.nextId + 1,
                  containerReads := st.containerReads + 1 }
  | .handle a => finishOpen w a st
  | .other => .ok (.errVal "Unsupported parameter: ${file}", st)

/-- `exports.open` (lines 45-102). -/
def openArchive (w : World) (file : OpenArg) (noCache : Bool) (st : St) :
    Except String (OpenRet × St) :=
  if cacheMiss st file noCache then openFresh w file st
  else
    match st.lastUsed with
    | some lu => .ok (.arch lu, st)
    | none => openFresh w file st

/-! ## get (lines 105-158) -/
/-- The dispatch part of `get` (lines 117-154), reached when the cached
short-circuit did not fire: single-shot decode-and-cache, streaming decode
(filtered into buckets when a filterSpec is present and left uncached, or
drained and cached otherwise), raw passthrough, and `undefined` for every
other section name (including `header` and any unknown name).  Without a
resolved protocol nothing is decoded and `data` stays `undefined`. -/
def getDecode (archiveFile : String) (a : Archive)
    (keys : Option (List Criterion)) (st : St) :
    Except String (Option JSVal × St) :=
  match a.protocol with
  | none => .ok (none, st)
  | some p =>
    if archiveFile ∈ SINGLE_SHOT then
      match a.container.files archiveFile with
      | none => .error (readFileError archiveFile)
      | some raw =>
        let v := parseStrings (decodeSingleShot p archiveFile raw)
        let a2 := { a with data := setField a.data archiveFile v }
        .ok (some v, { st with lastUsed := some a2,
                               fileReads := st.fileReads + 1,
                               sectionDecodes := st.sectionDecodes + 1 })
    else if archiveFile ∈ STREAMING then
      match a.container.files archiveFile with
      | none => .error (readFileError archiveFile)
      | some raw =>
        match keys with
        | some ks =>
          let buckets := filterEvents ks (decodeStreaming p archiveFile raw)
          .ok (some (.arr (buckets.map JSVal.arr)),
               { st with fileReads := st.fileReads + 1,
                         sectionDecodes := st.sectionDecodes + 1 })
        | none =>
          let v := JSVal.arr ((decodeStreaming p archiveFile raw).map parseStrings)
          let a2 := { a with data := setField a.data archiveFile v }
          .ok (some v, { st with lastUsed := some a2,
                                 fileReads := st.fileReads + 1,
                                 sectionDecodes := st.sectionDecodes + 1 })
    else if archiveFile = RAW_DATA then
      match a.container.files archiveFile with
      | none => .error (readFileError archiveFile)
      | some raw =>
        let v := parseStrings raw
        let a2 := { a with data := setField a.data archiveFile v }
        .ok (some v, { st with lastUsed := some a2,
                               fileReads := st.fileReads + 1 })
    else .ok (none, st)

/-- `exports.get` (lines 105-158; named `getSection` here because the bare
name `get` collides with a Mathlib export).  The archive argument is fed through
`open` first (line 107, with `noCache` absent, i.e. false); an `Error`
value or an archive-level error state emits exactly one diagnostic and
yields `undefined` (lines 109-112); the cached value is returned only when
present, *truthy* (`archive.data[archiveFile] &&` is a truthiness test) and
no filterSpec was supplied (line 114); otherwise the dispatch runs. -/
def getSection (w : World) (archiveFile : String) (archiveArg : OpenArg)
    (keys : Option (List Criterion)) (st : St) :
    Except String (Option JSVal × St) :=
  match openArchive w archiveArg false st with
  | .error e => .error e
  | .ok (.errVal _, st1) => .ok (none, { st1 with logs := st1.logs + 1 })
  | .ok (.arch a, st1) =>
    if a.error.isSome then .ok (none, { st1 with logs := st1.logs + 1 })
    else
      match List.lookup archiveFile a.data with
      | some v =>
        if !falsy v && keys.isNone then .ok (some v, st1)
        else getDecode archiveFile a keys st1
      | none => getDecode archiveFile a keys st1

/-! ## Standalone entry points (lines 166-197) -/
/-- `exports.parseHeader` (lines 166-168): bootstrap-decode a header buffer
and normalize. -/
def parseHeader (w : World) (buffer : JSVal) : JSVal :=
  parseStrings (w.protocol29406.decodeReplayHeader buffer)

/-- `exports.parseFile` (lines 178-197): resolve the decoder set for
`build` (returning `undefined` rather than raising when the require
fails — lines 181-185), then apply the single-shot/streaming dispatch to
the given buffer with no caching and no filtering; any other section name
(including `header` and `replay.server.battlelobby`) leaves `data`
undefined. -/
def parseFile (w : World) (filename : String) (buffer : JSVal)
    (build : String) : Option JSVal :=
  match w.registry build with
  | none => none
  | some p =>
    if filename ∈ SINGLE_SHOT then
      some (parseStrings (decodeSingleShot p filename buffer))
    else if filename ∈ STREAMING then
      some (.arr ((decodeStreaming p filename buffer).map parseStrings))
    else none

/-! ## Concrete fixtures for counterexamples and witnesses -/
/-- A decoded header carrying `m_version.m_baseBuild = 777`. -/
def testHeader : JSVal := .obj [("m_version", .obj [("m_baseBuild", .num 777)])]

/-- A game event whose `m_playerId` is 1; it also carries `m_group = 5`. -/
def evA : JSVal := .obj [("m_playerId", .num 1), ("m_group", .num 5)]

/-- A game event whose `m_playerId` is 2. -/
def evB : JSVal := .obj [("m_playerId", .num 2), ("m_group", .num 5)]

/-- A small concrete decoder set used as both the bootstrap module and the
version-777 module in the test worlds. -/
def testProto : Protocol :=
  { decodeReplayHeader := fun _ => testHeader,
    decodeReplayDetails := fun b => .obj [("m_title", b)],
    decodeReplayInitdata := fun b => .obj [("m_syncLobbyState", b)],
    decodeReplayAttributesEvents := fun b => .obj [("scopes", b)],
    decodeReplayGameEvents := fun _ => [evA, evB],
    decodeReplayMessageEvents := fun _ => [],
    decodeReplayTrackerEvents := fun _ => [] }

/-- A concrete container holding a details file, a game-events file and a
raw-lobby file. -/
def testContainer : Container :=
  { headerContent := .buf [0],
    files := fun f =>
      if f = DETAILS then some (.buf [1])
      else if f = GAME_EVENTS then some (.buf [2])
      else if f = RAW_DATA then some (.buf [3])
      else none }

/-- A world in which protocol 777 resolves and `/replays/a` opens. -/
def goodWorld : World :=
  { registry := fun v => if v = "777" then some testProto else none,
    protocol29406 := testProto,
    fs := fun s => if s = "/replays/a" then some testContainer else none,
    cwd := "/w" }

/-- A world in which no protocol version resolves (ProtocolNotFound). -/
def noProtoWorld : World :=
  { registry := fun _ => none,
    protocol29406 := testProto,
    fs := fun s => if s = "/replays/a" then some testContainer else none,
    cwd := "/w" }

/-- A world for the relative-path counterexample: the container lives at
the resolved path `/w/r` while the caller passes the relative `r`. -/
def relWorld : World :=
  { registry := fun _ => none,
    protocol29406 := testProto,
    fs := fun s => if s = "/w/r" then some testContainer else none,
    cwd := "/w" }

/-- The archive exactly as `open("/replays/a", false)` builds it in
`goodWorld`. -/
def goodArchive : Archive :=
  { aid := 0, filename := "/replays/a", container := testContainer,
    data := [(HEADER, testHeader)], baseBuild := some 777,
    protocol := some testProto, error := none }

/-- The state right after that open: the slot holds `goodArchive`. -/
def goodSt : St :=
  { lastUsed := some goodArchive, nextId := 1, logs := 0, containerReads := 1,
    fileReads := 0, headerDecodes := 2, sectionDecodes := 0 }

/-! ## Counterexamples -/
/-- A criterion naming two fields that the event `evA` both satisfies. -/
def dupCrit : Criterion := [("m_playerId", .num 1), ("m_group", .num 5)]

/-- Two successive relative-path opens: reference identity of the returned
archive and the container-read counter after each call. -/
def c2Probe : Option (Nat × Nat × Nat × Nat) :=
  match openArchive relWorld (.path "r") false St.init with
  | .ok (.arch a1, st1) =>
    match openArchive relWorld (.path "r") false st1 with
    | .ok (.arch a2, st2) =>
      some (a1.aid, st1.containerReads, a2.aid, st2.containerReads)
    | _ => none
  | _ => none

/-- Two successive unfiltered `get(DETAILS, archiveObject)` calls: the
file-read and section-decode counters after each call. -/
def c5Probe : Option (Nat × Nat × Nat × Nat) :=
  match openArchive goodWorld (.path "/replays/a") false St.init with
  | .ok (.arch a0, st0) =>
    match getSection goodWorld DETAILS (.handle a0) none st0 with
    | .ok (_, st1) =>
      match st1.lastUsed with
      | some a1 =>
        match getSection goodWorld DETAILS (.handle a1) none st1 with
        | .ok (_, st2) =>
          some (st1.fileReads, st1.sectionDecodes, st2.fileReads, st2.sectionDecodes)
        | _ => none
      | none => none
    | _ => none
  | _ => none

/-- Presence of the streaming section's cache entry before and after a
filtered `get` through the Archive object. -/
def c6Probe : Option (Bool × Bool) :=
  match openArchive goodWorld (.path "/replays/a") false St.init with
  | .ok (.arch a0, st0) =>
    match getSection goodWorld GAME_EVENTS (.handle a0) none st0 with
    | .ok (_, st1) =>
      match st1.lastUsed with
      | some a1 =>
        match getSection goodWorld GAME_EVENTS (.handle a1)
            (some [[("m_playerId", .num 1)]]) st1 with
        | .ok (_, st2) =>
          match st2.lastUsed with
          | some a2 => some ((List.lookup GAME_EVENTS a1.data).isSome,
                             (List.lookup GAME_EVENTS a2.data).isSome)
          | none => none
        | _ => none
      | none => none
    | _ => none
  | _ => none

/-! ## Witnesses -/
/-- FilterSpec with one single-field criterion per player id. -/
def c1ks : List Criterion := [[("m_playerId", .num 1)], [("m_playerId", .num 2)]]

/-- The decoded details value of the fixture container. -/
def c5v : JSVal := .obj [("m_title", .str (bufToString [1]))]

/-- The state after the first unfiltered `get(DETAILS, "/replays/a")`. -/
def c5st1 : St :=
  { goodSt with
      lastUsed := some { goodArchive with
                           data := setField goodArchive.data DETAILS c5v },
      fileReads := goodSt.fileReads + 1,
      sectionDecodes := goodSt.sectionDecodes + 1 }

/-- FilterSpec with one criterion naming the shared `m_group` field. -/
def c6ks : List Criterion := [[("m_group", .num 5)]]

theorem parseStringsList_eq_map (xs : List JSVal) :
    parseStringsList xs = xs.map parseStrings := by
  induction xs with
  | nil => rfl
  | cons x xs ih => simp [parseStringsList, ih]

theorem parseStringsObj_fst (fs : List (String × JSVal)) :
    (parseStringsObj fs).map Prod.fst = fs.map Prod.fst := by
  induction fs with
  | nil => rfl
  | cons kv fs ih => cases kv; simp [parseStringsObj, ih]

mutual
theorem parseStrings_idem : (x : JSVal) →
    parseStrings (parseStrings x) = parseStrings x
  | .null => rfl
  | .bool _ => rfl
  | .num _ => rfl
  | .str _ => rfl
  | .buf _ => rfl
  | .arr xs => by simp [parseStrings, parseStringsList_idem xs]
  | .obj fs => by simp [parseStrings, parseStringsObj_idem fs]

theorem parseStringsList_idem : (xs : List JSVal) →
    parseStringsList (parseStringsList xs) = parseStringsList xs
  | [] => rfl
  | x :: xs => by
      simp [parseStringsList, parseStrings_idem x, parseStringsList_idem xs]

theorem parseStringsObj_idem : (fs : List (String × JSVal)) →
    parseStringsObj (parseStringsObj fs) = parseStringsObj fs
  | [] => rfl
  | (k, v) :: fs => by
      simp [parseStringsObj, parseStrings_idem v, parseStringsObj_idem fs]
end

/-! ## Library lemmas about the model's building blocks -/
theorem lookup_setField_self (fs : List (String × JSVal)) (k : String) (v : JSVal) :
    List.lookup k (setField fs k v) = some v := by
  induction fs with
  | nil => simp [setField, List.lookup]
  | cons kv rest ih =>
    obtain ⟨k', v'⟩ := kv
    by_cases h : k' = k
    · simp [setField, h, List.lookup]
    · simp only [setField, if_neg h, List.lookup]
      have : (k == k') = false := by
        simp [BEq.beq]
        exact fun hh => h hh.symm
      simp [this, ih]

theorem lookup_setField_other (fs : List (String × JSVal)) (k g : String)
    (v : JSVal) (h : g ≠ k) :
    List.lookup g (setField fs k v) = List.lookup g fs := by
  induction fs with
  | nil =>
    have : (g == k) = false := by simpa using h
    simp [setField, List.lookup, this]
  | cons kv rest ih =>
    obtain ⟨k', v'⟩ := kv
    by_cases hk : k' = k
    · subst hk
      have : (g == k') = false := by simpa using h
      simp [setField, List.lookup, this]
    · simp only [setField, if_neg hk, List.lookup]
      by_cases hg : g = k'
      · simp [hg]
      · have : (g == k') = false := by simpa using hg
        simp [this, ih]

theorem critPushes_eq_replicate (ev : JSVal) (crit : Criterion) :
    critPushes ev crit = List.replicate (crit.countP (matchKey ev)) ev := by
  have key : ∀ (c : Criterion) (acc : List JSVal),
      c.foldl (fun acc kv => if matchKey ev kv then acc ++ [ev] else acc) acc =
        acc ++ List.replicate (c.countP (matchKey ev)) ev := by
    intro c
    induction c with
    | nil => intro acc; simp
    | cons kv cs ih =>
      intro acc
      by_cases h : matchKey ev kv
      · simp only [List.foldl, h, if_pos, ih]
        simp [List.countP_cons, h, List.append_assoc, List.replicate_succ]
      · simp [List.foldl, h, List.countP_cons, ih]
  simpa using key crit []

theorem mem_critPushes (ev x : JSVal) (crit : Criterion) :
    x ∈ critPushes ev crit ↔ x = ev ∧ ∃ kv ∈ crit, matchKey ev kv := by
  rw [critPushes_eq_replicate, List.mem_replicate]
  constructor
  · rintro ⟨hn, hx⟩
    refine ⟨hx, ?_⟩
    have := List.countP_pos_iff (p := matchKey ev) (l := crit) |>.mp
      (Nat.pos_of_ne_zero hn)
    simpa using this
  · rintro ⟨hx, kv, hkv, hm⟩
    refine ⟨?_, hx⟩
    have : 0 < crit.countP (matchKey ev) :=
      List.countP_pos_iff (p := matchKey ev) (l := crit) |>.mpr ⟨kv, hkv, hm⟩
    omega

theorem pushEvent_eq_zipWith (ev : JSVal) :
    ∀ (cs : List Criterion) (ds : List (List JSVal)), ds.length = cs.length →
      pushEvent ev cs ds = List.zipWith (fun d c => d ++ critPushes ev c) ds cs := by
  intro cs
  induction cs with
  | nil =>
    intro ds h
    cases ds with
    | nil => rfl
    | cons d ds => simp at h
  | cons c cs ih =>
    intro ds h
    cases ds with
    | nil => simp at h
    | cons d ds =>
      simp only [pushEvent, List.zipWith]
      rw [ih ds (by simpa using h)]

theorem zipWith_left_id {α β : Type} :
    ∀ (ds : List α) (ks : List β), ds.length ≤ ks.length →
      List.zipWith (fun d _ => d) ds ks = ds := by
  intro ds
  induction ds with
  | nil => intro ks h; simp
  | cons d ds ih =>
    intro ks h
    cases ks with
    | nil => simp at h
    | cons k ks => simp only [List.zipWith]; rw [ih ks (by simpa using h)]

theorem zipWith_zipWith_same {α β γ δ : Type} (f : γ → β → δ) (g : α → β → γ) :
    ∀ (ds : List α) (ks : List β),
      List.zipWith f (List.zipWith g ds ks) ks =
        List.zipWith (fun d c => f (g d c) c) ds ks := by
  intro ds
  induction ds with
  | nil => intro ks; simp
  | cons d ds ih =>
    intro ks
    cases ks with
    | nil => simp
    | cons k ks => simp [List.zipWith, ih]

theorem zipWith_map_left_same {β γ δ : Type} (f : γ → β → δ) (g : β → γ) :
    ∀ ks : List β, List.zipWith f (ks.map g) ks = ks.map (fun c => f (g c) c) := by
  intro ks
  induction ks with
  | nil => rfl
  | cons k ks ih => simp only [List.map, List.zipWith, ih]

theorem foldl_pushEvent (ks : List Criterion) :
    ∀ (events : List JSVal) (ds : List (List JSVal)), ds.length = ks.length →
      events.foldl (fun ds ev => pushEvent (parseStrings ev) ks ds) ds =
        List.zipWith
          (fun d c => d ++ events.flatMap (fun e => critPushes (parseStrings e) c))
          ds ks := by
  intro events
  induction events with
  | nil =>
    intro ds h
    simp only [List.foldl, List.flatMap_nil, List.append_nil]
    exact (zipWith_left_id ds ks (le_of_eq h)).symm
  | cons e es ih =>
    intro ds h
    simp only [List.foldl]
    rw [pushEvent_eq_zipWith _ _ _ h,
        ih _ (by rw [List.length_zipWith]; omega),
        zipWith_zipWith_same]
    congr 1
    funext d c
    simp [List.append_assoc]

theorem filterEvents_eq_map (ks : List Criterion) (events : List JSVal) :
    filterEvents ks events =
      ks.map (fun crit => events.flatMap (fun e => critPushes (parseStrings e) crit)) := by
  unfold filterEvents
  rw [foldl_pushEvent ks events _ (by simp), zipWith_map_left_same]
  simp

theorem filterEvents_length (ks : List Criterion) (events : List JSVal) :
    (filterEvents ks events).length = ks.length := by
  rw [filterEvents_eq_map]; simp

theorem mem_filterEvents_bucket (crit : Criterion) (events : List JSVal) (x : JSVal) :
    x ∈ events.flatMap (fun e => critPushes (parseStrings e) crit) ↔
      ∃ e ∈ events, x = parseStrings e ∧ ∃ kv ∈ crit, matchKey (parseStrings e) kv := by
  simp only [List.mem_flatMap]
  constructor
  · rintro ⟨e, he, hx⟩
    rw [mem_critPushes] at hx
    exact ⟨e, he, hx.1, hx.2⟩
  · rintro ⟨e, he, hx, hkv⟩
    exact ⟨e, he, (mem_critPushes _ _ _).mpr ⟨hx, hkv⟩⟩

/-! ## Claim theorems -/
/-- C4: `normalize` (`parseStrings`) is idempotent, and structure-preserving
for non-binary inputs: arrays are normalized element-wise keeping length and
order, objects keep their key list, numbers, booleans, plain strings and
`null` pass through unchanged, and binary buffers become their text
representation. -/
theorem C4_normalize_idempotent_structure :
    (∀ x, parseStrings (parseStrings x) = parseStrings x) ∧
    (∀ xs, parseStrings (.arr xs) = .arr (xs.map parseStrings) ∧
      (xs.map parseStrings).length = xs.length) ∧
    (∀ fs, parseStrings (.obj fs) = .obj (parseStringsObj fs) ∧
      (parseStringsObj fs).map Prod.fst = fs.map Prod.fst) ∧
    (∀ n, parseStrings (.num n) = .num n) ∧
    (∀ b, parseStrings (.bool b) = .bool b) ∧
    (∀ s, parseStrings (.str s) = .str s) ∧
    (parseStrings .null = .null) ∧
    (∀ bs, parseStrings (.buf bs) = .str (bufToString bs)) := by
  refine ⟨parseStrings_idem, ?_, ?_, ?_, ?_, ?_, rfl, ?_⟩
  · intro xs
    exact ⟨by simp [parseStrings, parseStringsList_eq_map], by simp⟩
  · intro fs
    exact ⟨rfl, parseStringsObj_fst fs⟩
  · intro n; rfl
  · intro b; rfl
  · intro s; rfl
  · intro bs; rfl

/-- C7: `parseFile(section, buffer, version)` with a version for which no
decoder set resolves returns `undefined` and does not raise (the require
failure is caught at lines 181-185; `parseFile` is total in the model —
the early return precedes every decoder invocation). -/
theorem C7_parseFile_unknown_version (w : World) (f : String) (buf : JSVal)
    (build : String) (h : w.registry build = none) :
    parseFile w f buf build = none := by
  simp [parseFile, h]

/-- C10: once the decoder set resolves, `parseFile` produces a decoded
value exactly for the three single-shot and three streaming section names;
the header name, the raw-lobby-data name and every other name yield
`undefined` (lines 187-196 have no branch for them, so `data` is never
assigned). -/
theorem C10_parseFile_section_dispatch (w : World) (p : Protocol)
    (build : String) (h : w.registry build = some p) (buf : JSVal) :
    (∀ f, (parseFile w f buf build).isSome ↔ (f ∈ SINGLE_SHOT ∨ f ∈ STREAMING)) ∧
    parseFile w HEADER buf build = none ∧
    parseFile w RAW_DATA buf build = none := by
  refine ⟨?_, ?_, ?_⟩
  · intro f
    by_cases h1 : f ∈ SINGLE_SHOT
    · simp [parseFile, h, h1]
    · by_cases h2 : f ∈ STREAMING
      · simp [parseFile, h, h1, h2]
      · simp [parseFile, h, h1, h2]
  · have h1 : HEADER ∉ SINGLE_SHOT := by decide
    have h2 : HEADER ∉ STREAMING := by decide
    simp [parseFile, h, h1, h2]
  · have h1 : RAW_DATA ∉ SINGLE_SHOT := by decide
    have h2 : RAW_DATA ∉ STREAMING := by decide
    simp [parseFile, h, h1, h2]

/-- C8: `open` surfaces open failures as returned `Error` values, never as
raised exceptions: an argument that is neither a string nor a container
handle yields the `Error` value built at line 65, and a path whose
container construction fails (and which is not served from the cache slot)
yields the caught constructor error (lines 57-59); in both cases the state
— cache slot included — is untouched. -/
theorem C8_open_failure_returns_error (w : World) (st : St) (noCache : Bool) :
    (openArchive w .other noCache st =
      .ok (.errVal "Unsupported parameter: ${file}", st)) ∧
    (∀ s, cacheMiss st (.path s) noCache = true →
      w.fs (resolvePath w s) = none →
      openArchive w (.path s) noCache st =
        .ok (.errVal (mpqOpenError (resolvePath w s)), st)) := by
  constructor
  · have hcm : cacheMiss st .other noCache = true := by
      cases h : st.lastUsed <;> simp [cacheMiss, h]
    simp [openArchive, hcm, openFresh]
  · intro s hcm hfs
    simp [openArchive, hcm, openFresh, hfs]

theorem finishOpen_not_errVal (w : World) (a : Archive) (st : St) (m : String)
    (st2 : St) : finishOpen w a st ≠ .ok (.errVal m, st2) := by
  unfold finishOpen
  intro h
  simp only [] at h
  split at h
  · exact Except.noConfusion h
  · split at h <;> simp at h

/-- C9: a failed `open` (one that returns an `Error` value) leaves the
process-wide cache slot — and all other state — unchanged, because every
`Error` value is returned at line 68, before `lastUsed` is assigned at
line 69; consequently the previously cached archive is still served for
its own identity afterwards. -/
theorem C9_failed_open_preserves_cache (w : World) (file : OpenArg)
    (noCache : Bool) (st : St) (m : String) (st' : St)
    (h : openArchive w file noCache st = .ok (.errVal m, st')) :
    st' = st ∧ ∀ lu, st.lastUsed = some lu →
      openArchive w (.path lu.filename) false st = .ok (.arch lu, st) := by
  constructor
  · unfold openArchive at h
    split at h
    · unfold openFresh at h
      split at h
      · dsimp only at h
        split at h
        · simp at h
          exact h.2.symm
        · exact absurd h (finishOpen_not_errVal _ _ _ _ _)
      · exact absurd h (finishOpen_not_errVal _ _ _ _ _)
      · simp at h
        exact h.2.symm
    · split at h
      · simp at h
      · unfold openFresh at h
        split at h
        · dsimp only at h
          split at h
          · simp at h
            exact h.2.symm
          · exact absurd h (finishOpen_not_errVal _ _ _ _ _)
        · exact absurd h (finishOpen_not_errVal _ _ _ _ _)
        · simp at h
          exact h.2.symm
  · intro lu hlu
    have hcm : cacheMiss st (.path lu.filename) false = false := by
      simp [cacheMiss, hlu]
    simp [openArchive, hcm, hlu]

theorem finishOpen_spec (w : World) (a : Archive) (st : St) (mv : JSVal)
    (hm : getField
      (parseStrings (w.protocol29406.decodeReplayHeader a.container.headerContent))
      "m_version" = some mv) :
    ∃ a2 st2, finishOpen w a st = .ok (.arch a2, st2) ∧
      a2.filename = a.filename ∧ a2.aid = a.aid ∧ a2.container = a.container ∧
      st2.lastUsed = some a2 ∧ st2.nextId = st.nextId ∧
      st2.containerReads = st.containerReads ∧ st2.fileReads = st.fileReads ∧
      st2.sectionDecodes = st.sectionDecodes ∧ st2.logs = st.logs := by
  unfold finishOpen
  simp only []
  rw [hm]
  simp only []
  split
  · exact ⟨_, _, rfl, by simp, by simp, by simp, rfl, rfl, rfl, rfl, rfl, rfl⟩
  · exact ⟨_, _, rfl, by simp, by simp, by simp, rfl, rfl, rfl, rfl, rfl, rfl⟩

theorem finishOpen_protocol_not_found (w : World) (a : Archive) (st : St)
    (mv : JSVal) (b : Int)
    (hm : getField
      (parseStrings (w.protocol29406.decodeReplayHeader a.container.headerContent))
      "m_version" = some mv)
    (hb : getField mv "m_baseBuild" = some (.num b))
    (hp : a.protocol = none)
    (hreg : w.registry (bbStr (some b)) = none) :
    ∃ a2 st2, finishOpen w a st = .ok (.arch a2, st2) ∧
      a2.error = some ("protocol " ++ bbStr (some b) ++ " not found") ∧
      a2.protocol = none ∧ a2.container = a.container ∧
      a2.filename = a.filename ∧ a2.baseBuild = some b ∧
      st2.lastUsed = some a2 ∧ st2.logs = st.logs ∧
      st2.fileReads = st.fileReads ∧ st2.sectionDecodes = st.sectionDecodes ∧
      st2.containerReads = st.containerReads := by
  unfold finishOpen
  simp only []
  rw [hm]
  simp only [hb, requireProtocol, hreg, hp]
  exact ⟨_, _, rfl, by simp, by simp [hp], by simp, by simp, by simp, rfl, rfl,
    rfl, rfl, rfl⟩

theorem get_error_short_circuit (w : World) (f : String) (arg : OpenArg)
    (keys : Option (List Criterion)) (st : St) (a : Archive) (st1 : St)
    (hopen : openArchive w arg false st = .ok (.arch a, st1))
    (herr : a.error.isSome = true) :
    getSection w f arg keys st = .ok (none, { st1 with logs := st1.logs + 1 }) := by
  unfold getSection
  rw [hopen]
  simp [herr]

/-- C2 (amended): the double-open caching property holds exactly when the
identifier is the archive's stored absolute path string.  For such a path
`s`, `open(s, false)` twice returns the identical cached instance on the
second call with the state (read and decode counters included) completely
unchanged, while `open(s, true)` re-reads the container.  The original
claim quantified over *every* identifier; the counterexample shows it
fails for a relative path, because line 48 compares the raw argument
against the stored resolved filename before resolution. -/
theorem C2_amended_absolute_path_cached (w : World) (s : String)
    (c : Container) (mv : JSVal) (st : St)
    (habs : isAbsolute s = true)
    (hfs : w.fs s = some c)
    (hmiss : cacheMiss st (.path s) false = true)
    (hm : getField (parseStrings (w.protocol29406.decodeReplayHeader c.headerContent))
      "m_version" = some mv) :
    ∃ a st1, openArchive w (.path s) false st = .ok (.arch a, st1) ∧
      a.filename = s ∧ st1.lastUsed = some a ∧
      st1.containerReads = st.containerReads + 1 ∧
      openArchive w (.path s) false st1 = .ok (.arch a, st1) ∧
      (∃ a2 st2, openArchive w (.path s) true st1 = .ok (.arch a2, st2) ∧
        st2.containerReads = st1.containerReads + 1) := by
  have hres : resolvePath w s = s := by simp [resolvePath, habs]
  have hfresh : openFresh w (.path s) st =
      finishOpen w
        { aid := st.nextId, filename := s, container := c, data := [],
          baseBuild := none, protocol := none, error := none }
        { st with nextId := st.nextId + 1,
                  containerReads := st.containerReads + 1 } := by
    simp [openFresh, hres, hfs]
  obtain ⟨a, st1, hrun, hfn, _, hcont, hlast, _, hreads, _, _, _⟩ :=
    finishOpen_spec w
      { aid := st.nextId, filename := s, container := c, data := [],
        baseBuild := none, protocol := none, error := none }
      { st with nextId := st.nextId + 1,
                containerReads := st.containerReads + 1 } mv hm
  refine ⟨a, st1, ?_, ?_, hlast, ?_, ?_, ?_⟩
  · rw [openArchive, if_pos hmiss, hfresh, hrun]
  · simpa using hfn
  · simpa using hreads
  · have hcm2 : cacheMiss st1 (.path s) false = false := by
      have : a.filename = s := by simpa using hfn
      simp [cacheMiss, hlast, this]
    simp [openArchive, hcm2, hlast]
  · have hcm3 : cacheMiss st1 (.path s) true = true := by
      simp [cacheMiss, hlast]
    have hfresh2 : openFresh w (.path s) st1 =
        finishOpen w
          { aid := st1.nextId, filename := s, container := c, data := [],
            baseBuild := none, protocol := none, error := none }
          { st1 with nextId := st1.nextId + 1,
                     containerReads := st1.containerReads + 1 } := by
      simp [openFresh, hres, hfs]
    obtain ⟨a2, st2, hrun2, _, _, _, _, _, hreads2, _, _, _⟩ :=
      finishOpen_spec w
        { aid := st1.nextId, filename := s, container := c, data := [],
          baseBuild := none, protocol := none, error := none }
        { st1 with nextId := st1.nextId + 1,
                   containerReads := st1.containerReads + 1 } mv hm
    refine ⟨a2, st2, ?_, ?_⟩
    · rw [openArchive, if_pos hcm3, hfresh2, hrun2]
    · simpa using hreads2

/-- C3: opening an archive whose decoded header carries a `baseBuild` with
no registered decoder set stores the error string
`protocol <baseBuild> not found` (which contains the version number) on the
archive, and every subsequent `get` on that archive (passed as the handle
it is) returns `undefined` with exactly one diagnostic emitted per call,
no raised exception, and no attempt to read or decode the requested
section. -/
theorem C3_protocol_not_found (w : World) (s : String) (c : Container)
    (mv : JSVal) (b : Int) (st : St)
    (hmiss : cacheMiss st (.path s) false = true)
    (hfs : w.fs (resolvePath w s) = some c)
    (hm : getField (parseStrings (w.protocol29406.decodeReplayHeader c.headerContent))
      "m_version" = some mv)
    (hb : getField mv "m_baseBuild" = some (.num b))
    (hreg : w.registry (bbStr (some b)) = none) :
    ∃ a st1, openArchive w (.path s) false st = .ok (.arch a, st1) ∧
      a.error = some ("protocol " ++ bbStr (some b) ++ " not found") ∧
      (∀ f keys st2, ∃ st3,
        getSection w f (.handle a) keys st2 = .ok (none, st3) ∧
        st3.logs = st2.logs + 1 ∧
        st3.sectionDecodes = st2.sectionDecodes ∧
        st3.fileReads = st2.fileReads) := by
  obtain ⟨a, st1, hrun, herr, hprot, hcont, _, _, hlast, _, _, _, _⟩ :=
    finishOpen_protocol_not_found w
      { aid := st.nextId, filename := resolvePath w s, container := c,
        data := [], baseBuild := none, protocol := none, error := none }
      { st with nextId := st.nextId + 1,
                containerReads := st.containerReads + 1 } mv b hm hb rfl hreg
  refine ⟨a, st1, ?_, herr, ?_⟩
  · rw [openArchive, if_pos hmiss]
    simp only [openFresh, hfs]
    exact hrun
  · intro f keys st2
    have hmv : getField
        (parseStrings (w.protocol29406.decodeReplayHeader a.container.headerContent))
        "m_version" = some mv := by rw [hcont]; exact hm
    obtain ⟨a3, st3, hrun3, herr3, _, _, _, _, hlast3, hlogs3, hfr3, hsd3, _⟩ :=
      finishOpen_protocol_not_found w a st2 mv b hmv hb hprot hreg
    have hcm : cacheMiss st2 (.handle a) false = true := by
      cases h : st2.lastUsed <;> simp [cacheMiss, h]
    have hopen3 : openArchive w (.handle a) false st2 = .ok (.arch a3, st3) := by
      rw [openArchive, if_pos hcm]
      simp only [openFresh]
      exact hrun3
    refine ⟨{ st3 with logs := st3.logs + 1 }, ?_, by simp [hlogs3], by simp [hsd3],
      by simp [hfr3]⟩
    exact get_error_short_circuit w f (.handle a) keys st2 a3 st3 hopen3
      (by simp [herr3])

theorem openArchive_cache_hit (w : World) (st : St) (a : Archive)
    (h1 : st.lastUsed = some a) :
    openArchive w (.path a.filename) false st = .ok (.arch a, st) := by
  have hcm : cacheMiss st (.path a.filename) false = false := by
    simp [cacheMiss, h1]
  simp [openArchive, hcm, h1]

theorem getSection_cached_path (w : World) (st : St) (a : Archive) (f : String)
    (v : JSVal) (h1 : st.lastUsed = some a) (h2 : a.error = none)
    (h3 : List.lookup f a.data = some v) (h4 : falsy v = false) :
    getSection w f (.path a.filename) none st = .ok (some v, st) := by
  unfold getSection
  rw [openArchive_cache_hit w st a h1]
  simp [h2, h3, h4]

theorem getDecode_unfiltered_spec (f : String) (a : Archive)
    (st : St) (v : JSVal) (st1 : St)
    (h : getDecode f a none st = .ok (some v, st1)) :
    ∃ a2, st1.lastUsed = some a2 ∧ a2.filename = a.filename ∧
      a2.error = a.error ∧ List.lookup f a2.data = some v := by
  unfold getDecode at h
  split at h
  · simp at h
  · simp only [] at h
    split at h
    · split at h
      · simp at h
      · simp only [Except.ok.injEq, Prod.mk.injEq, Option.some.injEq] at h
        obtain ⟨hv, hst⟩ := h
        subst hst
        exact ⟨_, rfl, rfl, rfl, by rw [← hv]; exact lookup_setField_self _ _ _⟩
    · split at h
      · split at h
        · simp at h
        · simp only [Except.ok.injEq, Prod.mk.injEq, Option.some.injEq] at h
          obtain ⟨hv, hst⟩ := h
          subst hst
          exact ⟨_, rfl, rfl, rfl, by rw [← hv]; exact lookup_setField_self _ _ _⟩
      · split at h
        · split at h
          · simp at h
          · simp only [Except.ok.injEq, Prod.mk.injEq, Option.some.injEq] at h
            obtain ⟨hv, hst⟩ := h
            subst hst
            exact ⟨_, rfl, rfl, rfl,
              by rw [← hv]; exact lookup_setField_self _ _ _⟩
        · simp at h

/-- C5 (amended): the unfiltered decode cache works when the archive is
addressed by its stored (absolute) path string: whenever
`get(section, path)` without a filterSpec succeeds with a truthy value,
calling it again returns the very same value with the state — container
reads, decodes, cache slot — completely unchanged.  The original claim
quantified over every way of passing the archive; the counterexample shows
it fails when the Archive object itself is passed, because `get` re-feeds
it through `open`, whose identity check (line 48) compares the object
against a filename string and therefore re-processes it, resetting
`archive.data` (line 72). -/
theorem C5_amended_unfiltered_cache (w : World) (st st1 : St) (a : Archive)
    (f : String) (v : JSVal)
    (h1 : st.lastUsed = some a) (h3 : a.error = none)
    (hrun : getSection w f (.path a.filename) none st = .ok (some v, st1))
    (hv : falsy v = false) :
    getSection w f (.path a.filename) none st1 = .ok (some v, st1) := by
  have hopen := openArchive_cache_hit w st a h1
  unfold getSection at hrun
  rw [hopen] at hrun
  simp only [h3, Option.isSome_none, Bool.false_eq_true, if_false] at hrun
  cases hl : List.lookup f a.data with
  | some v0 =>
    rw [hl] at hrun
    by_cases hf : falsy v0
    · simp only [hf, Bool.not_true, Bool.false_and, if_false] at hrun
      obtain ⟨a2, hlast2, hfn2, herr2, hlk2⟩ := getDecode_unfiltered_spec f a st v st1 hrun
      rw [← hfn2]
      exact getSection_cached_path w st1 a2 f v hlast2 (by rw [herr2, h3]) hlk2 hv
    · simp only [hf, Bool.not_false, Option.isNone_none, Bool.and_self, if_true,
        Except.ok.injEq, Prod.mk.injEq, Option.some.injEq] at hrun
      obtain ⟨hveq, hsteq⟩ := hrun
      subst hveq
      subst hsteq
      exact getSection_cached_path w st a f v0 h1 h3 hl (by simpa using hf)
  | none =>
    rw [hl] at hrun
    obtain ⟨a2, hlast2, hfn2, herr2, hlk2⟩ := getDecode_unfiltered_spec f a st v st1 hrun
    rw [← hfn2]
    exact getSection_cached_path w st1 a2 f v hlast2 (by rw [herr2, h3]) hlk2 hv

theorem streaming_not_single_shot (f : String) (h : f ∈ STREAMING) :
    f ∉ SINGLE_SHOT := by
  simp only [STREAMING, List.mem_cons, List.not_mem_nil, or_false] at h
  rcases h with h | h | h <;> subst h <;> decide

theorem getSection_filtered_run (w : World) (st : St) (a : Archive)
    (p : Protocol) (f : String) (raw : JSVal) (ks : List Criterion)
    (h1 : st.lastUsed = some a) (h2 : a.error = none)
    (h4 : a.protocol = some p) (h5 : f ∈ STREAMING)
    (h6 : a.container.files f = some raw) :
    getSection w f (.path a.filename) (some ks) st =
      .ok (some (.arr ((filterEvents ks (decodeStreaming p f raw)).map JSVal.arr)),
           { st with fileReads := st.fileReads + 1,
                     sectionDecodes := st.sectionDecodes + 1 }) := by
  have hns : f ∉ SINGLE_SHOT := streaming_not_single_shot f h5
  have hdec : getDecode f a (some ks) st =
      .ok (some (.arr ((filterEvents ks (decodeStreaming p f raw)).map JSVal.arr)),
           { st with fileReads := st.fileReads + 1,
                     sectionDecodes := st.sectionDecodes + 1 }) := by
    unfold getDecode
    rw [h4]
    simp only [hns, if_false, h5, if_true, h6]
  unfold getSection
  rw [openArchive_cache_hit w st a h1]
  simp only [h2, Option.isSome_none, Bool.false_eq_true, if_false]
  cases hl : List.lookup f a.data with
  | some v0 => simp [hl, hdec]
  | none => simp [hl, hdec]

/-- C1 (amended): a filtered decode of a streaming section returns exactly
one bucket per criterion, in criterion order; bucket `i` lists, in original
stream order, the normalized events of which at least one field named in
criterion `i` is present and equals the criterion's expected value — but
each such event is appended once *per matching field*, not once per event
(the `push` at line 136 sits inside the per-field loop of line 134), so an
event matching several fields of one criterion appears several times in
that bucket.  Every bucket element belongs to the full unfiltered
normalized decode, and membership is governed by the logical-OR policy the
claim states; only the "appended once" part fails (see the
counterexample). -/
theorem C1_filtered_decode_buckets (w : World) (st : St) (a : Archive)
    (p : Protocol) (f : String) (raw : JSVal) (ks : List Criterion)
    (h1 : st.lastUsed = some a) (h2 : a.error = none)
    (h4 : a.protocol = some p) (h5 : f ∈ STREAMING)
    (h6 : a.container.files f = some raw) :
    (getSection w f (.path a.filename) (some ks) st =
      .ok (some (.arr ((filterEvents ks (decodeStreaming p f raw)).map JSVal.arr)),
           { st with fileReads := st.fileReads + 1,
                     sectionDecodes := st.sectionDecodes + 1 })) ∧
    (filterEvents ks (decodeStreaming p f raw)).length = ks.length ∧
    filterEvents ks (decodeStreaming p f raw) =
      ks.map (fun crit => (decodeStreaming p f raw).flatMap
        (fun e => critPushes (parseStrings e) crit)) ∧
    (∀ crit x,
      (x ∈ (decodeStreaming p f raw).flatMap
          (fun e => critPushes (parseStrings e) crit) ↔
        ∃ e ∈ decodeStreaming p f raw, x = parseStrings e ∧
          ∃ kv ∈ crit, matchKey (parseStrings e) kv)) ∧
    (∀ bkt x, bkt ∈ filterEvents ks (decodeStreaming p f raw) → x ∈ bkt →
      x ∈ (decodeStreaming p f raw).map parseStrings) := by
  refine ⟨getSection_filtered_run w st a p f raw ks h1 h2 h4 h5 h6,
    filterEvents_length ks _, filterEvents_eq_map ks _,
    fun crit x => mem_filterEvents_bucket crit _ x, ?_⟩
  intro bkt x hb hx
  rw [filterEvents_eq_map] at hb
  obtain ⟨crit, _, rfl⟩ := List.mem_map.mp hb
  obtain ⟨e, he, rfl, _⟩ := (mem_filterEvents_bucket crit _ x).mp hx
  exact List.mem_map.mpr ⟨e, he, rfl⟩

/-- C6 (amended): a filtered `get` on a streaming section never writes the
filtered result into the per-section cache — the dispatch of lines 126-141
binds the buckets to the local `data` without assigning
`archive.data[archiveFile]`, so the cache slot still holds the archive
exactly as it was (the section's cache entry included) and only the two
effect counters advance.  This is stated for an archive addressed by its
stored path; the counterexample shows the original claim fails when the
Archive object itself is passed, because the re-open at line 107 resets
`archive.data` (line 72) before the filtered decode even starts. -/
theorem C6_filtered_not_cached (w : World) (st : St) (a : Archive)
    (p : Protocol) (f : String) (raw : JSVal) (ks : List Criterion)
    (h1 : st.lastUsed = some a) (h2 : a.error = none)
    (h4 : a.protocol = some p) (h5 : f ∈ STREAMING)
    (h6 : a.container.files f = some raw) :
    (getSection w f (.path a.filename) (some ks) st =
      .ok (some (.arr ((filterEvents ks (decodeStreaming p f raw)).map JSVal.arr)),
           { st with fileReads := st.fileReads + 1,
                     sectionDecodes := st.sectionDecodes + 1 })) ∧
    ({ st with fileReads := st.fileReads + 1,
               sectionDecodes := st.sectionDecodes + 1 } : St).lastUsed
      = some a := by
  exact ⟨getSection_filtered_run w st a p f raw ks h1 h2 h4 h5 h6,
    by simpa using h1⟩

/-- C1 counterexample: the claim says a matching event is appended to its
bucket once (membership by logical OR over the criterion's fields).  With
the single criterion `dupCrit` and the single event `evA`, which matches
*both* named fields, the code produces a bucket of length 2 — the event is
pushed once per matching field (the push at line 136 is inside the
per-field loop) — whereas appending each OR-matching event once would give
a bucket of length 1. -/
theorem C1_counterexample :
    ¬ ((filterEvents [dupCrit] [evA]).map List.length =
        [(([evA].map parseStrings).filter
          (fun e => dupCrit.any (fun kv => matchKey e kv))).length]) := by
  intro h
  have h1 : (filterEvents [dupCrit] [evA]).map List.length = [2] := rfl
  have h2 : (([evA].map parseStrings).filter
      (fun e => dupCrit.any (fun kv => matchKey e kv))).length = 1 := rfl
  rw [h1, h2] at h
  simp at h

/-- C2 counterexample: `open("r", false)` twice in `relWorld` re-reads the
container on the second call (read counter 1 then 2) and returns a fresh
instance (identity 0 then 1), because line 48 compares the raw relative
argument against the stored resolved filename `/w/r`.  The claim — second
call returns the identical cached instance with no re-read — would require
equal identities and equal read counters. -/
theorem C2_counterexample :
    c2Probe = some (0, 1, 1, 2) ∧ ¬ (∃ i r, c2Probe = some (i, r, i, r)) := by
  refine ⟨rfl, ?_⟩
  rintro ⟨i, r, hc⟩
  rw [show c2Probe = some (0, 1, 1, 2) from rfl] at hc
  simp only [Option.some.injEq, Prod.mk.injEq] at hc
  omega

/-- C5 counterexample: passing the Archive *object* to `get` twice decodes
the details section twice — counters go (1 read, 1 decode) then (2, 2) —
because `get` re-feeds the object through `open` (line 107), whose identity
check (line 48) compares the object against a filename string, so the
archive is re-processed and `archive.data` reset (line 72) before every
dispatch.  The claim — the second call returns the cached value with no
second container read or re-decode — would require the counters to be
unchanged by the second call. -/
theorem C5_counterexample :
    c5Probe = some (1, 1, 2, 2) ∧ ¬ (∃ r d, c5Probe = some (r, d, r, d)) := by
  refine ⟨rfl, ?_⟩
  rintro ⟨r, d, hc⟩
  rw [show c5Probe = some (1, 1, 2, 2) from rfl] at hc
  simp only [Option.some.injEq, Prod.mk.injEq] at hc
  omega

/-- C6 counterexample: after an unfiltered decode fills the section cache,
a filtered `get` with the Archive object passed as handle leaves the slot
*without* that entry (`true` before, `false` after): the filtered result is
indeed never stored, but the claim that the section's cache entry is the
same after the call as before fails, because the re-open at line 107 resets
`archive.data` (line 72). -/
theorem C6_counterexample :
    c6Probe = some (true, false) ∧ ¬ (∃ b, c6Probe = some (b, b)) := by
  refine ⟨rfl, ?_⟩
  rintro ⟨b, hc⟩
  rw [show c6Probe = some (true, false) from rfl] at hc
  simp only [Option.some.injEq, Prod.mk.injEq] at hc
  obtain ⟨h1, h2⟩ := hc
  rw [← h1] at h2
  simp at h2

theorem C1_witness :
    getSection goodWorld GAME_EVENTS (.path goodArchive.filename) (some c1ks)
        goodSt =
      .ok (some (.arr ((filterEvents c1ks
            (decodeStreaming testProto GAME_EVENTS (.buf [2]))).map JSVal.arr)),
           { goodSt with fileReads := goodSt.fileReads + 1,
                         sectionDecodes := goodSt.sectionDecodes + 1 }) :=
  (C1_filtered_decode_buckets goodWorld goodSt goodArchive testProto GAME_EVENTS
    (.buf [2]) c1ks rfl rfl rfl (by decide) rfl).1

theorem C2_witness :
    ∃ a st1, openArchive goodWorld (.path "/replays/a") false St.init =
        .ok (.arch a, st1) ∧
      a.filename = "/replays/a" ∧ st1.lastUsed = some a ∧
      st1.containerReads = St.init.containerReads + 1 ∧
      openArchive goodWorld (.path "/replays/a") false st1 = .ok (.arch a, st1) ∧
      (∃ a2 st2, openArchive goodWorld (.path "/replays/a") true st1 =
          .ok (.arch a2, st2) ∧
        st2.containerReads = st1.containerReads + 1) :=
  C2_amended_absolute_path_cached goodWorld "/replays/a" testContainer
    (.obj [("m_baseBuild", .num 777)]) St.init rfl rfl rfl rfl

theorem C3_witness :
    ∃ a st1, openArchive noProtoWorld (.path "/replays/a") false St.init =
        .ok (.arch a, st1) ∧
      a.error = some ("protocol " ++ bbStr (some 777) ++ " not found") ∧
      (∀ f keys st2, ∃ st3,
        getSection noProtoWorld f (.handle a) keys st2 = .ok (none, st3) ∧
        st3.logs = st2.logs + 1 ∧
        st3.sectionDecodes = st2.sectionDecodes ∧
        st3.fileReads = st2.fileReads) :=
  C3_protocol_not_found noProtoWorld "/replays/a" testContainer
    (.obj [("m_baseBuild", .num 777)]) 777 St.init rfl rfl rfl rfl rfl

theorem C5_witness :
    getSection goodWorld DETAILS (.path goodArchive.filename) none c5st1 =
      .ok (some c5v, c5st1) :=
  C5_amended_unfiltered_cache goodWorld goodSt c5st1 goodArchive DETAILS c5v
    rfl rfl rfl rfl

theorem C6_witness :
    (getSection goodWorld GAME_EVENTS (.path goodArchive.filename) (some c6ks)
        goodSt =
      .ok (some (.arr ((filterEvents c6ks
            (decodeStreaming testProto GAME_EVENTS (.buf [2]))).map JSVal.arr)),
           { goodSt with fileReads := goodSt.fileReads + 1,
                         sectionDecodes := goodSt.sectionDecodes + 1 })) ∧
    ({ goodSt with fileReads := goodSt.fileReads + 1,
                   sectionDecodes := goodSt.sectionDecodes + 1 } : St).lastUsed
      = some goodArchive :=
  C6_filtered_not_cached goodWorld goodSt goodArchive testProto GAME_EVENTS
    (.buf [2]) c6ks rfl rfl rfl (by decide) rfl

theorem C7_witness :
    parseFile noProtoWorld DETAILS (.buf []) "UNKNOWN_VERSION" = none :=
  C7_parseFile_unknown_version noProtoWorld DETAILS (.buf []) "UNKNOWN_VERSION"
    rfl

theorem C8_witness :
    openArchive goodWorld .other false St.init =
      .ok (.errVal "Unsupported parameter: ${file}", St.init) ∧
    openArchive goodWorld (.path "/missing") false St.init =
      .ok (.errVal (mpqOpenError (resolvePath goodWorld "/missing")), St.init) :=
  ⟨(C8_open_failure_returns_error goodWorld St.init false).1,
   (C8_open_failure_returns_error goodWorld St.init false).2 "/missing" rfl rfl⟩

theorem C9_witness :
    goodSt = goodSt ∧
    openArchive goodWorld (.path goodArchive.filename) false goodSt =
      .ok (.arch goodArchive, goodSt) :=
  ⟨(C9_failed_open_preserves_cache goodWorld .other false goodSt
      "Unsupported parameter: ${file}" goodSt rfl).1,
   (C9_failed_open_preserves_cache goodWorld .other false goodSt
      "Unsupported parameter: ${file}" goodSt rfl).2 goodArchive rfl⟩

theorem C10_witness :
    ((parseFile goodWorld DETAILS (.buf []) "777").isSome ↔
      (DETAILS ∈ SINGLE_SHOT ∨ DETAILS ∈ STREAMING)) ∧
    parseFile goodWorld HEADER (.buf []) "777" = none ∧
    parseFile goodWorld RAW_DATA (.buf []) "777" = none :=
  ⟨(C10_parseFile_section_dispatch goodWorld testProto "777" rfl (.buf [])).1
      DETAILS,
   (C10_parseFile_section_dispatch goodWorld testProto "777" rfl (.buf [])).2.1,
   (C10_parseFile_section_dispatch goodWorld testProto "777" rfl (.buf [])).2.2⟩
